import Mathlib

/-!
Shallow embedding of the user-management CLI in `src/app/cli.py`.

The relational store (defined in `app/models.py` / `app/database.py`, which are
not under `src/`) is modelled from the spec as a list of rows in insertion
order plus an id counter; the store enforces uniqueness of `username` and
`email`, rejecting violating writes with an integrity error.  Each CLI command
is translated as a function from a store state to `Except String (Store × List
String)`: `.ok (s, out)` means the command completes normally with new state
`s` printing the lines `out`; `.error e` means an unhandled store error `e`
propagates out of the command.
-/

/-- A user row.  Modelled from the spec: the `User` entity has a store-assigned
integer `id` and string fields `username`, `email`, `password`. -/
structure User where
  id : Nat
  username : String
  email : String
  password : String
  deriving Repr, DecidableEq

/-- Modelled from the spec: the relational store, rows kept in the store's
natural (insertion) order together with the next id the store will assign. -/
structure Store where
  rows : List User
  nextId : Nat
  deriving Repr, DecidableEq

/-- Modelled from the spec: the empty store right after the schema is
recreated (`drop_all` + `create_db_and_tables`). -/
def freshStore : Store := { rows := [], nextId := 1 }

/-- Modelled from the spec: an insert violates the store's uniqueness
constraints when some existing row already has the given username or email. -/
def violates (s : Store) (username email : String) : Bool :=
  s.rows.any (fun u => u.username == username || u.email == email)

/-- Modelled from the spec: `db.add` + `db.commit` of a new user.  The store
assigns the next integer id and appends the row, or rejects the write with an
integrity error when a uniqueness constraint is violated. -/
def insertUser (s : Store) (username email password : String) : Except String Store :=
  if violates s username email then
    .error "UNIQUE constraint failed"
  else
    .ok { rows := s.rows ++ [⟨s.nextId, username, email, password⟩], nextId := s.nextId + 1 }

/-- `db.exec(select(User).where(User.username == username)).first()`:
the first row whose username equals the argument. -/
def lookupUser (s : Store) (username : String) : Option User :=
  (s.rows.filter (fun u => u.username == username)).head?

/-- Modelled from the spec: `print(user)` prints a formatted representation of
the record with all its fields. -/
def userLine (u : User) : String :=
  toString u.id ++ " - " ++ u.username ++ " - " ++ u.email ++ " - " ++ u.password

/-- Does the character list `q` occur at the very start of `s`? -/
def chStartsWith : List Char → List Char → Bool
  | [], _ => true
  | _ :: _, [] => false
  | a :: q, b :: s => a == b && chStartsWith q s

/-- Does the character list `q` occur contiguously somewhere in `s`? -/
def chContains (q : List Char) : List Char → Bool
  | [] => chStartsWith q []
  | b :: s => chStartsWith q (b :: s) || chContains q s

/-- SQL `column.contains(q)` (i.e. `LIKE '%q%'`): `q` occurs as a contiguous
substring of `s`. -/
def strContains (s q : String) : Bool :=
  chContains q.toList s.toList

/-- The `initialize` command of `cli.py`: drop all tables, recreate the
schema, insert the seed user bob and commit.  (Named `initDb` here because
`initialize` is not usable as a plain Lean identifier.) -/
def initDb (_s : Store) : Except String (Store × List String) :=
  match insertUser freshStore "bob" "bob@mail.com" "bobpass" with
  | .error e => .error e
  | .ok s1 => .ok (s1, ["Database Initialized"])

/-- The `get_user` command of `cli.py`. -/
def get_user (s : Store) (username : String) : Except String (Store × List String) :=
  match lookupUser s username with
  | none => .ok (s, [username ++ " not found!"])
  | some user => .ok (s, [userLine user])

/-- The `get_all_users` command of `cli.py`. -/
def get_all_users (s : Store) : Except String (Store × List String) :=
  if s.rows.isEmpty then
    .ok (s, ["No users found"])
  else
    .ok (s, s.rows.map userLine)

/-- The `change_email` command of `cli.py`: look up by username; if absent
report not-found; otherwise set the email field and commit.  The commit is
rejected by the store (uniqueness of email; modelled from the spec) when some
other row already has the new email, and `cli.py` does not catch that error. -/
def change_email (s : Store) (username new_email : String) : Except String (Store × List String) :=
  match lookupUser s username with
  | none => .ok (s, [username ++ " not found! Unable to update email."])
  | some user =>
    if s.rows.any (fun w => w.id != user.id && w.email == new_email) then
      .error "UNIQUE constraint failed: user.email"
    else
      .ok ({ s with rows := s.rows.map (fun w => if w.id == user.id then { w with email := new_email } else w) },
           ["Updated " ++ user.username ++ "\x27s email to " ++ new_email])

/-- The `create_user` command of `cli.py`: try to insert and commit; on an
integrity error roll back and print the taken message, otherwise print the
new record. -/
def create_user (s : Store) (username email password : String) : Except String (Store × List String) :=
  match insertUser s username email password with
  | .error _ => .ok (s, ["Username or email already taken!"])
  | .ok s1 => .ok (s1, [userLine ⟨s.nextId, username, email, password⟩])

/-- The `delete_user` command of `cli.py`: look up by username; if absent
report not-found; otherwise delete the row (by primary key) and commit. -/
def delete_user (s : Store) (username : String) : Except String (Store × List String) :=
  match lookupUser s username with
  | none => .ok (s, [username ++ " not found! Unable to delete user."])
  | some user =>
    .ok ({ s with rows := s.rows.filter (fun w => w.id != user.id) }, [username ++ " deleted"])

/-- The rows matched by `find_user`: username or email contains the query. -/
def findMatches (s : Store) (query : String) : List User :=
  s.rows.filter (fun u => strContains u.username query || strContains u.email query)

/-- The `find_user` command of `cli.py`. -/
def find_user (s : Store) (query : String) : Except String (Store × List String) :=
  let users := findMatches s query
  if users.isEmpty then
    .ok (s, ["No users found matching \"" ++ query ++ "\""])
  else
    .ok (s, users.map userLine)

/-- The `list_users` command of `cli.py`: `select(User).offset(offset).limit(limit)`
over the store's natural order. -/
def list_users (s : Store) (limit offset : Nat) : Except String (Store × List String) :=
  let users := (s.rows.drop offset).take limit
  if users.isEmpty then
    .ok (s, ["No users found"])
  else
    .ok (s, users.map userLine)

/-- The store invariant maintained by the uniqueness constraints: all rows
have pairwise distinct ids, usernames and emails. -/
def UserDistinct (a b : User) : Prop :=
  a.id ≠ b.id ∧ a.username ≠ b.username ∧ a.email ≠ b.email

/-- A store satisfying the uniqueness constraints. -/
def Uniq (s : Store) : Prop :=
  s.rows.Pairwise UserDistinct

/-- The spec's notion of substring, stated independently of the executable
search: `q` occurs contiguously in `s`. -/
def SpecSubstring (q s : String) : Prop :=
  ∃ pre post : List Char, s.toList = pre ++ q.toList ++ post

/-- The store produced by `initialize`: exactly the seed user bob. -/
def bobStore : Store :=
  { rows := [⟨1, "bob", "bob@mail.com", "bobpass"⟩], nextId := 2 }

/-- A two-user store (bob plus alice), reachable by `initialize` followed by
one successful `create_user`. -/
def demo2 : Store :=
  { rows := [⟨1, "bob", "bob@mail.com", "bobpass"⟩, ⟨2, "alice", "alice@mail.com", "p"⟩],
    nextId := 3 }

/-- Seeding scenario of the spec: `initialize` followed by four successful
`create_user` calls, giving a store with 5 users in creation order. -/
def seed5 : Except String Store := do
  let (s1, _) ← initDb freshStore
  let (s2, _) ← create_user s1 "alice" "alice@mail.com" "p1"
  let (s3, _) ← create_user s2 "carol" "carol@mail.com" "p2"
  let (s4, _) ← create_user s3 "dave" "dave@mail.com" "p3"
  let (s5, _) ← create_user s4 "eve" "eve@mail.com" "p4"
  return s5

/-- The store reached by `seed5`. -/
def demo5 : Store :=
  { rows := [⟨1, "bob", "bob@mail.com", "bobpass"⟩,
             ⟨2, "alice", "alice@mail.com", "p1"⟩,
             ⟨3, "carol", "carol@mail.com", "p2"⟩,
             ⟨4, "dave", "dave@mail.com", "p3"⟩,
             ⟨5, "eve", "eve@mail.com", "p4"⟩],
    nextId := 6 }

/-! ### Helper lemmas -/

theorem mem_of_filter_head {p : User → Bool} {l : List User} {v : User}
    (h : (l.filter p).head? = some v) : v ∈ l ∧ p v = true := by
  have hm : v ∈ l.filter p := by
    cases hf : l.filter p with
    | nil => rw [hf] at h; cases h
    | cons a t =>
      rw [hf] at h
      have hav : a = v := by simpa using h
      subst hav
      exact List.mem_cons_self a t
  exact ⟨(List.mem_filter.mp hm).1, (List.mem_filter.mp hm).2⟩

theorem lookupUser_mem {s : Store} {u : String} {v : User}
    (h : lookupUser s u = some v) : v ∈ s.rows ∧ v.username = u := by
  have := mem_of_filter_head (p := fun w => w.username == u) h
  exact ⟨this.1, by have := this.2; simpa using this⟩

theorem pairwise_key_unique {α κ : Type} {l : List α} {f : α → κ}
    (hp : l.Pairwise fun a b => f a ≠ f b) {v w : α}
    (hv : v ∈ l) (hw : w ∈ l) (hk : f v = f w) : v = w := by
  induction l with
  | nil => cases hv
  | cons a t ih =>
    rw [List.pairwise_cons] at hp
    rcases List.mem_cons.mp hv with h1 | h1
    · rcases List.mem_cons.mp hw with h2 | h2
      · rw [h1, h2]
      · subst h1
        exact absurd hk (hp.1 w h2)
    · rcases List.mem_cons.mp hw with h2 | h2
      · subst h2
        exact absurd hk.symm (hp.1 v h1)
      · exact ih hp.2 h1 h2

theorem filter_key_length_one {α κ : Type} [BEq κ] [LawfulBEq κ] {l : List α} {f : α → κ}
    (hp : l.Pairwise fun a b => f a ≠ f b) {k : κ} {v : α}
    (hv : v ∈ l) (hk : f v = k) :
    (l.filter fun w => f w == k).length = 1 := by
  induction l with
  | nil => cases hv
  | cons a t ih =>
    rw [List.pairwise_cons] at hp
    rcases List.mem_cons.mp hv with h1 | h1
    · subst h1
      have ht : t.filter (fun w => f w == k) = [] := by
        apply List.filter_eq_nil_iff.mpr
        intro b hb
        have hne : f v ≠ f b := hp.1 b hb
        simp only [beq_iff_eq]
        exact fun hbk => hne (hk.trans hbk.symm)
      rw [List.filter_cons]
      simp [hk, ht]
    · have ha : ¬ (f a == k) = true := by
        have hne : f a ≠ f v := hp.1 v h1
        simp only [beq_iff_eq]
        exact fun hak => hne (hak.trans hk.symm)
      rw [List.filter_cons, if_neg ha]
      exact ih hp.2 h1

theorem uniq_username {s : Store} (hU : Uniq s) :
    s.rows.Pairwise fun a b => a.username ≠ b.username :=
  hU.imp fun h => h.2.1

theorem uniq_email {s : Store} (hU : Uniq s) :
    s.rows.Pairwise fun a b => a.email ≠ b.email :=
  hU.imp fun h => h.2.2

theorem uniq_id {s : Store} (hU : Uniq s) :
    s.rows.Pairwise fun a b => a.id ≠ b.id :=
  hU.imp fun h => h.1

theorem chContains_nil_left (s : List Char) : chContains [] s = true := by
  cases s <;> simp [chContains, chStartsWith]

theorem chStartsWith_iff (q : List Char) : ∀ s : List Char,
    chStartsWith q s = true ↔ ∃ t, s = q ++ t := by
  induction q with
  | nil =>
    intro s
    constructor
    · intro _
      exact ⟨s, rfl⟩
    · intro _
      rfl
  | cons a q ih =>
    intro s
    cases s with
    | nil =>
      constructor
      · intro h
        cases h
      · rintro ⟨t, ht⟩
        cases ht
    | cons b s =>
      rw [show chStartsWith (a :: q) (b :: s) = (a == b && chStartsWith q s) from rfl,
          Bool.and_eq_true, beq_iff_eq, ih s]
      constructor
      · rintro ⟨rfl, t, rfl⟩
        exact ⟨t, rfl⟩
      · rintro ⟨t, ht⟩
        rw [List.cons_append] at ht
        have h1 : b = a := (List.cons.injEq b s (a) (q ++ t) ▸ ht).1
        have h2 : s = q ++ t := (List.cons.injEq b s (a) (q ++ t) ▸ ht).2
        exact ⟨h1.symm, t, h2⟩

theorem chContains_iff (q : List Char) : ∀ s : List Char,
    chContains q s = true ↔ ∃ pre post, s = pre ++ q ++ post := by
  intro s
  induction s with
  | nil =>
    rw [show chContains q [] = chStartsWith q [] from rfl, chStartsWith_iff]
    constructor
    · rintro ⟨t, ht⟩
      rcases List.append_eq_nil.mp ht.symm with ⟨hq, htn⟩
      exact ⟨[], [], by simp [hq]⟩
    · rintro ⟨pre, post, hp⟩
      rcases List.append_eq_nil.mp hp.symm with ⟨h1, hpost⟩
      rcases List.append_eq_nil.mp h1 with ⟨hpre, hq⟩
      exact ⟨[], by simp [hq]⟩
  | cons b s ih =>
    rw [show chContains q (b :: s) = (chStartsWith q (b :: s) || chContains q s) from rfl,
        Bool.or_eq_true, chStartsWith_iff, ih]
    constructor
    · rintro (⟨t, ht⟩ | ⟨pre, post, hp⟩)
      · exact ⟨[], t, by simp [ht]⟩
      · exact ⟨b :: pre, post, by simp [hp]⟩
    · rintro ⟨pre, post, hp⟩
      cases pre with
      | nil =>
        rw [List.nil_append] at hp
        exact Or.inl ⟨post, hp⟩
      | cons c pre =>
        have h1 : b = c ∧ s = pre ++ q ++ post := by simpa using hp
        exact Or.inr ⟨pre, post, h1.2⟩

theorem strContains_iff (s q : String) :
    strContains s q = true ↔ SpecSubstring q s := by
  rw [strContains, SpecSubstring, chContains_iff]

/-! ### Claim theorems -/

/-- C8: running the initialize command twice in sequence from any starting
store leaves the store containing exactly one user record, the seed user
bob / bob@mail.com / bobpass: the first run produces that store and the
second run maps it to itself (idempotent wipe-and-reseed, no second bob). -/
theorem initDb_twice (s : Store) :
    ∃ s1 out, initDb s = .ok (s1, out) ∧ initDb s1 = .ok (s1, out) ∧
      s1.rows = [⟨1, "bob", "bob@mail.com", "bobpass"⟩] :=
  ⟨bobStore, ["Database Initialized"], rfl, rfl, rfl⟩

/-- C4: when the username is absent from the store, `change_email` reports
not-found, performs no write (the resulting store is the input store), and
completes normally (no error propagates). -/
theorem change_email_not_found (s : Store) (u new_e : String)
    (h : lookupUser s u = none) :
    change_email s u new_e = .ok (s, [u ++ " not found! Unable to update email."]) := by
  unfold change_email
  rw [h]

/-- Witness for `change_email_not_found` at a concrete store and username. -/
theorem change_email_not_found_witness :
    lookupUser bobStore "alice" = none ∧
    change_email bobStore "alice" "a@mail.com" =
      .ok (bobStore, ["alice not found! Unable to update email."]) :=
  ⟨rfl, change_email_not_found bobStore "alice" "a@mail.com" rfl⟩

/-- C10: with the empty query every row matches `find_user` (the empty string
is a substring of every string), so `find_user ""` returns every record and
prints the no-match message only when the store itself is empty. -/
theorem find_user_empty_query (s : Store) :
    findMatches s "" = s.rows ∧
    find_user s "" = .ok (s, if s.rows = [] then ["No users found matching \"\""]
                             else s.rows.map userLine) := by
  have hm : findMatches s "" = s.rows := by
    unfold findMatches
    apply List.filter_eq_self.mpr
    intro a _
    simp [strContains, show ("" : String).toList = [] from rfl, chContains_nil_left]
  refine ⟨hm, ?_⟩
  cases hr : s.rows with
  | nil => simp [find_user, hm, hr]
  | cons a t => simp [find_user, hm, hr]

/-- C7: `list_users` returns the page obtained by skipping `offset` rows of
the store's natural order and taking at most `limit` rows (printing the
no-users message when the page is empty); on the store seeded with 5 users
in creation order, `list_users` with limit 2 and offset 1 returns exactly
the 2nd and 3rd users (1-indexed). -/
theorem list_users_paging :
    (∀ (s : Store) (limit offset : Nat),
      list_users s limit offset =
        .ok (s, if (s.rows.drop offset).take limit = []
                then ["No users found"]
                else ((s.rows.drop offset).take limit).map userLine)) ∧
    seed5 = .ok demo5 ∧
    demo5.rows[1]? = some ⟨2, "alice", "alice@mail.com", "p1"⟩ ∧
    demo5.rows[2]? = some ⟨3, "carol", "carol@mail.com", "p2"⟩ ∧
    list_users demo5 2 1 =
      .ok (demo5, [userLine ⟨2, "alice", "alice@mail.com", "p1"⟩,
                   userLine ⟨3, "carol", "carol@mail.com", "p2"⟩]) := by
  refine ⟨?_, rfl, rfl, rfl, rfl⟩
  intro s limit offset
  cases h : (s.rows.drop offset).take limit with
  | nil => simp [list_users, h]
  | cons a t => simp [list_users, h]

/-- C1: when neither the username nor the email collides with an existing
row, `create_user` succeeds, and `get_user` on the new store returns exactly
the record (username, email, password) with the store-assigned id
`s.nextId`. -/
theorem create_then_get (s : Store) (u e p : String)
    (h : violates s u e = false) :
    ∃ s' out, create_user s u e p = .ok (s', out) ∧
      lookupUser s' u = some ⟨s.nextId, u, e, p⟩ ∧
      get_user s' u = .ok (s', [userLine ⟨s.nextId, u, e, p⟩]) := by
  have hall := List.any_eq_false.mp (by unfold violates at h; exact h)
  have hnone : s.rows.filter (fun w => w.username == u) = [] := by
    apply List.filter_eq_nil_iff.mpr
    intro a ha
    have hna := hall a ha
    simp only [Bool.or_eq_true, not_or, beq_iff_eq] at hna
    simp only [beq_iff_eq]
    exact hna.1
  have hlook : lookupUser ⟨s.rows ++ [⟨s.nextId, u, e, p⟩], s.nextId + 1⟩ u
      = some ⟨s.nextId, u, e, p⟩ := by
    unfold lookupUser
    rw [show (⟨s.rows ++ [⟨s.nextId, u, e, p⟩], s.nextId + 1⟩ : Store).rows
          = s.rows ++ [⟨s.nextId, u, e, p⟩] from rfl,
        List.filter_append, hnone]
    simp
  refine ⟨⟨s.rows ++ [⟨s.nextId, u, e, p⟩], s.nextId + 1⟩,
          [userLine ⟨s.nextId, u, e, p⟩], ?_, hlook, ?_⟩
  · simp [create_user, insertUser, h]
  · simp only [get_user, hlook]

/-- Witness for `create_then_get` on the empty store. -/
theorem create_then_get_witness :
    violates freshStore "alice" "alice@mail.com" = false ∧
    (∃ s' out, create_user freshStore "alice" "alice@mail.com" "pw" = .ok (s', out) ∧
      lookupUser s' "alice" = some ⟨1, "alice", "alice@mail.com", "pw"⟩ ∧
      get_user s' "alice" = .ok (s', [userLine ⟨1, "alice", "alice@mail.com", "pw"⟩])) :=
  ⟨rfl, create_then_get freshStore "alice" "alice@mail.com" "pw" rfl⟩

/-- C2: on a store satisfying the uniqueness invariant that already has a row
with the requested username or email, `create_user` rolls back (the store is
unchanged), prints exactly the taken message (the underlying store error is
not surfaced), and the colliding username/email still has exactly one row. -/
theorem create_user_duplicate (s : Store) (u e p : String)
    (hU : Uniq s) (h : violates s u e = true) :
    create_user s u e p = .ok (s, ["Username or email already taken!"]) ∧
    (∀ v ∈ s.rows, v.username = u →
      (s.rows.filter (fun w => w.username == u)).length = 1) ∧
    (∀ v ∈ s.rows, v.email = e →
      (s.rows.filter (fun w => w.email == e)).length = 1) := by
  refine ⟨?_, ?_, ?_⟩
  · simp [create_user, insertUser, h]
  · intro v hv hvu
    exact filter_key_length_one (uniq_username hU) hv hvu
  · intro v hv hve
    exact filter_key_length_one (uniq_email hU) hv hve

/-- Witness for `create_user_duplicate`: creating a second bob fails and
leaves the single bob row in place. -/
theorem create_user_duplicate_witness :
    Uniq bobStore ∧ violates bobStore "bob" "x@mail.com" = true ∧
    (create_user bobStore "bob" "x@mail.com" "p"
        = .ok (bobStore, ["Username or email already taken!"]) ∧
      (∀ v ∈ bobStore.rows, v.username = "bob" →
        (bobStore.rows.filter (fun w => w.username == "bob")).length = 1) ∧
      (∀ v ∈ bobStore.rows, v.email = "x@mail.com" →
        (bobStore.rows.filter (fun w => w.email == "x@mail.com")).length = 1)) :=
  ⟨by simp [Uniq, bobStore, List.pairwise_singleton], rfl,
   create_user_duplicate bobStore "bob" "x@mail.com" "p"
     (by simp [Uniq, bobStore, List.pairwise_singleton]) rfl⟩

/-- C3: on a store satisfying the uniqueness invariant, `change_email` for an
existing user whose new email collides with no other row succeeds and changes
only the email field of that user's row: the new store is the old one with
exactly that row's email replaced (id, username, password kept by the record
update), and every other row is unchanged and still present. -/
theorem change_email_frame (s : Store) (u new_e : String) (v : User)
    (hU : Uniq s) (hv : lookupUser s u = some v)
    (hno : (s.rows.any fun w => w.id != v.id && w.email == new_e) = false) :
    ∃ s', change_email s u new_e =
        .ok (s', ["Updated " ++ v.username ++ "\x27s email to " ++ new_e]) ∧
      s'.nextId = s.nextId ∧
      s'.rows = s.rows.map (fun w => if w.id == v.id then { w with email := new_e } else w) ∧
      { v with email := new_e } ∈ s'.rows ∧
      (∀ w ∈ s.rows, w ≠ v → w ∈ s'.rows) := by
  have hvm := lookupUser_mem hv
  refine ⟨⟨s.rows.map (fun w => if w.id == v.id then { w with email := new_e } else w), s.nextId⟩,
          ?_, rfl, rfl, ?_, ?_⟩
  · simp [change_email, hv, hno]
  · have hm := List.mem_map_of_mem
      (fun w => if w.id == v.id then { w with email := new_e } else w) hvm.1
    simpa using hm
  · intro w hw hne
    have hid : w.id ≠ v.id := fun hc => hne (pairwise_key_unique (uniq_id hU) hw hvm.1 hc)
    have hm := List.mem_map_of_mem
      (fun w => if w.id == v.id then { w with email := new_e } else w) hw
    simpa [hid] using hm

/-- Witness for `change_email_frame`: updating alice's email in the two-user
store to a fresh address. -/
theorem change_email_frame_witness :
    Uniq demo2 ∧
    lookupUser demo2 "alice" = some ⟨2, "alice", "alice@mail.com", "p"⟩ ∧
    (demo2.rows.any fun w => w.id != (2 : Nat) && w.email == "anew@mail.com") = false ∧
    (∃ s', change_email demo2 "alice" "anew@mail.com" =
        .ok (s', ["Updated " ++ "alice" ++ "\x27s email to " ++ "anew@mail.com"]) ∧
      s'.nextId = demo2.nextId ∧
      s'.rows = demo2.rows.map
        (fun w => if w.id == (⟨2, "alice", "alice@mail.com", "p"⟩ : User).id
                  then { w with email := "anew@mail.com" } else w) ∧
      ({ (⟨2, "alice", "alice@mail.com", "p"⟩ : User) with email := "anew@mail.com" }) ∈ s'.rows ∧
      (∀ w ∈ demo2.rows, w ≠ ⟨2, "alice", "alice@mail.com", "p"⟩ → w ∈ s'.rows)) :=
  ⟨by simp [Uniq, demo2, UserDistinct, List.pairwise_cons], rfl, rfl,
   change_email_frame demo2 "alice" "anew@mail.com" ⟨2, "alice", "alice@mail.com", "p"⟩
     (by simp [Uniq, demo2, UserDistinct, List.pairwise_cons]) rfl rfl⟩

/-- C5: on a store satisfying the uniqueness invariant, `delete_user` for an
existing user removes exactly that user's row and commits; a subsequent
`get_user` on that username reports not-found, and every other row is still
present. -/
theorem delete_then_get (s : Store) (u : String) (v : User)
    (hU : Uniq s) (hv : lookupUser s u = some v) :
    ∃ s', delete_user s u = .ok (s', [u ++ " deleted"]) ∧
      s'.rows = s.rows.filter (fun w => w.id != v.id) ∧
      lookupUser s' u = none ∧
      get_user s' u = .ok (s', [u ++ " not found!"]) ∧
      (∀ w ∈ s.rows, w ≠ v → w ∈ s'.rows) := by
  have hvm := lookupUser_mem hv
  have hfil : (s.rows.filter (fun w => w.id != v.id)).filter (fun w => w.username == u) = [] := by
    apply List.filter_eq_nil_iff.mpr
    intro a ha
    rcases List.mem_filter.mp ha with ⟨ha1, ha2⟩
    simp only [beq_iff_eq]
    intro hau
    have hav : a = v := pairwise_key_unique (uniq_username hU) ha1 hvm.1 (hau.trans hvm.2.symm)
    rw [hav] at ha2
    simp at ha2
  have hlk : lookupUser ⟨s.rows.filter (fun w => w.id != v.id), s.nextId⟩ u = none := by
    show ((s.rows.filter (fun w => w.id != v.id)).filter (fun w => w.username == u)).head? = none
    rw [hfil]
    rfl
  refine ⟨⟨s.rows.filter (fun w => w.id != v.id), s.nextId⟩, ?_, rfl, hlk, ?_, ?_⟩
  · simp [delete_user, hv]
  · simp only [get_user, hlk]
  · intro w hw hne
    have hid : w.id ≠ v.id := fun hc => hne (pairwise_key_unique (uniq_id hU) hw hvm.1 hc)
    show w ∈ s.rows.filter (fun w => w.id != v.id)
    exact List.mem_filter.mpr ⟨hw, by simp [hid]⟩

/-- Witness for `delete_then_get`: deleting alice from the two-user store. -/
theorem delete_then_get_witness :
    Uniq demo2 ∧
    lookupUser demo2 "alice" = some ⟨2, "alice", "alice@mail.com", "p"⟩ ∧
    (∃ s', delete_user demo2 "alice" = .ok (s', ["alice" ++ " deleted"]) ∧
      s'.rows = demo2.rows.filter
        (fun w => w.id != (⟨2, "alice", "alice@mail.com", "p"⟩ : User).id) ∧
      lookupUser s' "alice" = none ∧
      get_user s' "alice" = .ok (s', ["alice" ++ " not found!"]) ∧
      (∀ w ∈ demo2.rows, w ≠ ⟨2, "alice", "alice@mail.com", "p"⟩ → w ∈ s'.rows)) :=
  ⟨by simp [Uniq, demo2, UserDistinct, List.pairwise_cons], rfl,
   delete_then_get demo2 "alice" ⟨2, "alice", "alice@mail.com", "p"⟩
     (by simp [Uniq, demo2, UserDistinct, List.pairwise_cons]) rfl⟩

/-- C9: when the user exists and the new email already belongs to another
row, `change_email` does not catch the store's uniqueness error: the command
ends in an unhandled store error, whereas `create_user` on any uniqueness
violation catches it and completes normally with the taken message. -/
theorem change_email_duplicate_raises (s : Store) (u new_e : String) (v : User)
    (hv : lookupUser s u = some v)
    (hdup : (s.rows.any fun w => w.id != v.id && w.email == new_e) = true) :
    change_email s u new_e = .error "UNIQUE constraint failed: user.email" ∧
    ∀ un em pw, violates s un em = true →
      create_user s un em pw = .ok (s, ["Username or email already taken!"]) := by
  constructor
  · simp [change_email, hv, hdup]
  · intro un em pw hvio
    simp [create_user, insertUser, hvio]

/-- Witness for `change_email_duplicate_raises`: changing alice's email to
bob's existing address errors out. -/
theorem change_email_duplicate_raises_witness :
    lookupUser demo2 "alice" = some ⟨2, "alice", "alice@mail.com", "p"⟩ ∧
    (demo2.rows.any fun w => w.id != (2 : Nat) && w.email == "bob@mail.com") = true ∧
    change_email demo2 "alice" "bob@mail.com" = .error "UNIQUE constraint failed: user.email" :=
  ⟨rfl, rfl,
   (change_email_duplicate_raises demo2 "alice" "bob@mail.com"
     ⟨2, "alice", "alice@mail.com", "p"⟩ rfl rfl).1⟩

/-- C6: `find_user` returns exactly the rows whose username or email contains
the query as a substring (in the mathematical sense `SpecSubstring`, proved
equivalent to the executable search), and prints the no-match message exactly
when no row matches. -/
theorem find_user_characterization (s : Store) (q : String) :
    find_user s q = .ok (s,
      if findMatches s q = [] then ["No users found matching \"" ++ q ++ "\""]
      else (findMatches s q).map userLine) ∧
    ∀ w ∈ s.rows, (w ∈ findMatches s q ↔ (SpecSubstring q w.username ∨ SpecSubstring q w.email)) := by
  constructor
  · cases h : findMatches s q with
    | nil => simp [find_user, h]
    | cons a t => simp [find_user, h]
  · intro w hw
    simp only [findMatches, List.mem_filter, hw, true_and, Bool.or_eq_true, strContains_iff]

/-- Witness for `initDb_twice`, starting from a non-trivial store. -/
theorem initDb_twice_witness :
    ∃ s1 out, initDb demo2 = .ok (s1, out) ∧ initDb s1 = .ok (s1, out) ∧
      s1.rows = [⟨1, "bob", "bob@mail.com", "bobpass"⟩] :=
  initDb_twice demo2

/-- Witness for `find_user_empty_query` on the two-user store. -/
theorem find_user_empty_query_witness :
    findMatches demo2 "" = demo2.rows ∧
    find_user demo2 "" = .ok (demo2, if demo2.rows = [] then ["No users found matching \"\""]
                                     else demo2.rows.map userLine) :=
  find_user_empty_query demo2

/-- Witness for `find_user_characterization` on the two-user store with the
query bob. -/
theorem find_user_characterization_witness :
    find_user demo2 "bob" = .ok (demo2,
      if findMatches demo2 "bob" = [] then ["No users found matching \"" ++ "bob" ++ "\""]
      else (findMatches demo2 "bob").map userLine) ∧
    ∀ w ∈ demo2.rows,
      (w ∈ findMatches demo2 "bob" ↔ (SpecSubstring "bob" w.username ∨ SpecSubstring "bob" w.email)) :=
  find_user_characterization demo2 "bob"
